import Mathlib

/-!
Shallow embedding of the BAMPL elastic-supply token contract
(`BAMPLToken` in the repository's contract source).

Machine integers: the contract computes over `u256` via the runtime's
`SafeMath` (checked add/sub/mul/div that revert on overflow, underflow
and division by zero).  We model `u256` values as `Nat` together with
explicit bound checks against `U256MAX = 2^256 - 1`; each fallible
operation returns `Except Err _`, where the `Err` constructors name the
contract's revert reasons.  A revert anywhere discards the whole call's
state changes, which the functional style gives for free (the new state
is only produced at the end of a successful run).

Storage maps (`AddressMemoryMap`, `MapOfMap`) default missing keys to
zero; we model them as total functions `Address → Nat` defaulting to 0,
with `Function.update` for writes.
-/

set_option maxRecDepth 8192

namespace BAMPL

/-- Addresses (opaque identifiers in the contract runtime). -/
abbrev Address := Nat

/-- `u256.Max = 2^256 - 1`, the sentinel unlimited-allowance value. -/
def U256MAX : Nat := 2 ^ 256 - 1

/-- `INITIAL_SUPPLY`: 50 000 000 tokens times 10^8 decimals. -/
def INITIAL_SUPPLY : Nat := 5000000000000000

/-- `TOTAL_GONS`: fixed total gons, `INITIAL_SUPPLY * 10^61`. -/
def TOTAL_GONS : Nat :=
  50000000000000000000000000000000000000000000000000000000000000000000000000000

/-- `MAX_SUPPLY = 2^128 - 1`. -/
def MAX_SUPPLY : Nat := 340282366920938463463374607431768211455

/-- `MIN_SUPPLY`: supply can never contract below 1 BAMPL (10^8 raw). -/
def MIN_SUPPLY : Nat := 100000000

/-- `PRECISION = 10^8`, the 8-decimal fixed-point basis. -/
def PRECISION : Nat := 100000000

/-- Revert reasons thrown by the contract (and by the runtime's
`SafeMath`, modelled by the first three constructors). -/
inductive Err where
  | overflow
  | underflow
  | divByZero
  | zeroTransfer
  | insufficientBalance
  | zeroBalance
  | allowanceUnderflow
  | allowanceExceeded
  | priceZero
  | epochNotElapsed
  | noOraclePrice
  | zeroTarget
  | zeroEpoch
  | zeroLag
  | notDeployer
  deriving DecidableEq, Repr

/-- `SafeMath.add`: reverts when the sum exceeds `u256.Max`. -/
def safeAdd (a b : Nat) : Except Err Nat :=
  if a + b ≤ U256MAX then .ok (a + b) else .error .overflow

/-- `SafeMath.sub`: reverts on underflow. -/
def safeSub (a b : Nat) : Except Err Nat :=
  if b ≤ a then .ok (a - b) else .error .underflow

/-- `SafeMath.mul`: reverts when the product exceeds `u256.Max`. -/
def safeMul (a b : Nat) : Except Err Nat :=
  if a * b ≤ U256MAX then .ok (a * b) else .error .overflow

/-- `SafeMath.div`: floor division, reverts on a zero divisor. -/
def safeDiv (a b : Nat) : Except Err Nat :=
  if b = 0 then .error .divByZero else .ok (a / b)

/-- The contract's persistent storage (one field per storage slot of
`BAMPLToken`), plus the deployer identity used by `onlyDeployer`. -/
@[ext]
structure State where
  totalSupply : Nat
  gonsPerFragment : Nat
  gonBalances : Address → Nat
  allowances : Address → Address → Nat
  targetPrice : Nat
  oraclePrice : Nat
  lastRebaseBlock : Nat
  epochLength : Nat
  epoch : Nat
  rebaseLag : Nat
  deviationThreshold : Nat
  maxExpansionRate : Nat
  maxContractionRate : Nat
  lastOracleBlock : Nat
  deployer : Address

/-- `onDeployment`: initial state written at genesis (deployment block
`blk`, all gons to the deployer, policy defaults). -/
def initState (d : Address) (blk : Nat) : State where
  totalSupply := INITIAL_SUPPLY
  gonsPerFragment := TOTAL_GONS / INITIAL_SUPPLY
  gonBalances := Function.update (fun _ => 0) d TOTAL_GONS
  allowances := fun _ _ => 0
  targetPrice := PRECISION
  oraclePrice := PRECISION
  lastRebaseBlock := blk
  epochLength := 144
  epoch := 0
  rebaseLag := 10
  deviationThreshold := 5000000
  maxExpansionRate := 5000000
  maxContractionRate := 7700000
  lastOracleBlock := 0
  deployer := d

/-- `_fragmentBalance`: `gonBalance / gonsPerFragment`, returning zero
without dividing when the gon balance is zero. -/
def fragmentBalance (s : State) (owner : Address) : Except Err Nat :=
  if s.gonBalances owner = 0 then .ok 0
  else safeDiv (s.gonBalances owner) s.gonsPerFragment

/-- `_transferFragments`: transfer a fragment amount, converting to gons
internally; debit `f`, then credit `t` re-reading its balance after the
debit was written. -/
def transferFragments (f t : Address) (fragmentAmount : Nat) (s : State) :
    Except Err State :=
  if fragmentAmount = 0 then .error .zeroTransfer
  else do
    let gonValue ← safeMul fragmentAmount s.gonsPerFragment
    let fromGons := s.gonBalances f
    if fromGons < gonValue then .error .insufficientBalance
    else do
      let debited ← safeSub fromGons gonValue
      let bal1 := Function.update s.gonBalances f debited
      let credited ← safeAdd (bal1 t) gonValue
      .ok { s with gonBalances := Function.update bal1 t credited }

/-- `transfer`: public entry point, sender pays. -/
def transfer (sender toAddr : Address) (amount : Nat) (s : State) :
    Except Err State :=
  transferFragments sender toAddr amount s

/-- `_getAllowance`. -/
def getAllowance (s : State) (owner spender : Address) : Nat :=
  s.allowances owner spender

/-- `_setAllowance`. -/
def setAllowance (owner spender : Address) (amount : Nat) (s : State) :
    State :=
  { s with
    allowances :=
      Function.update s.allowances owner
        (Function.update (s.allowances owner) spender amount) }

/-- `_spendAllowance`: `u256.Max` is an unlimited allowance and is never
decremented; otherwise revert if `amount` exceeds the allowance, else
decrement by exactly `amount`. -/
def spendAllowance (owner spender : Address) (amount : Nat) (s : State) :
    Except Err State :=
  let current := getAllowance s owner spender
  if current = U256MAX then .ok s
  else if current < amount then .error .allowanceExceeded
  else do
    let rest ← safeSub current amount
    .ok (setAllowance owner spender rest s)

/-- `transferFrom`: spend the sender's allowance, then transfer. -/
def transferFrom (sender f t : Address) (amount : Nat) (s : State) :
    Except Err State := do
  let s1 ← spendAllowance f sender amount s
  transferFragments f t amount s1

/-- `transferAll`: move the sender's entire gon balance (no fragment
conversion); reverts only on a zero gon balance. -/
def transferAll (sender toAddr : Address) (s : State) : Except Err State :=
  let senderGons := s.gonBalances sender
  if senderGons = 0 then .error .zeroBalance
  else do
    let bal1 := Function.update s.gonBalances sender 0
    let credited ← safeAdd (bal1 toAddr) senderGons
    .ok { s with gonBalances := Function.update bal1 toAddr credited }

/-- `approve`. -/
def approve (sender spender : Address) (amount : Nat) (s : State) :
    Except Err State :=
  .ok (setAllowance sender spender amount s)

/-- `increaseAllowance`. -/
def increaseAllowance (sender spender : Address) (addedValue : Nat)
    (s : State) : Except Err State := do
  let v ← safeAdd (getAllowance s sender spender) addedValue
  .ok (setAllowance sender spender v s)

/-- `decreaseAllowance`: explicit underflow check, then subtract. -/
def decreaseAllowance (sender spender : Address) (subtractedValue : Nat)
    (s : State) : Except Err State :=
  let current := getAllowance s sender spender
  if current < subtractedValue then .error .allowanceUnderflow
  else do
    let v ← safeSub current subtractedValue
    .ok (setAllowance sender spender v s)

/-- `postPrice`: deployer-only; price must be nonzero. -/
def postPrice (sender : Address) (price blk : Nat) (s : State) :
    Except Err State :=
  if sender ≠ s.deployer then .error .notDeployer
  else if price = 0 then .error .priceZero
  else .ok { s with oraclePrice := price, lastOracleBlock := blk }

/-- `_computeSupplyDelta`: `totalSupply * deviation / targetPrice / lag`
with multiply-first ordering. -/
def computeSupplyDelta (deviation targetPrice : Nat) (s : State) :
    Except Err Nat := do
  let numerator ← safeMul s.totalSupply deviation
  let q ← safeDiv numerator targetPrice
  safeDiv q s.rebaseLag

/-- `_capDelta`: clamp `delta` to `maxRate` percent of current supply. -/
def capDelta (delta maxRate : Nat) (s : State) : Except Err Nat := do
  let p ← safeMul s.totalSupply maxRate
  let maxDelta ← safeDiv p PRECISION
  .ok (if maxDelta < delta then maxDelta else delta)

/-- Deviation-threshold / direction logic of `rebase` (the body of the
two `if` branches that set `supplyDelta` and `isExpansion`): returns the
applied supply delta and the direction flag (`true` = expansion). -/
def rebaseDelta (s : State) : Except Err (Nat × Bool) :=
  if s.targetPrice < s.oraclePrice then do
    let deviation ← safeSub s.oraclePrice s.targetPrice
    let num ← safeMul s.targetPrice s.deviationThreshold
    let thresholdAmt ← safeDiv num PRECISION
    if thresholdAmt < deviation then do
      let d ← computeSupplyDelta deviation s.targetPrice s
      let d2 ← capDelta d s.maxExpansionRate s
      .ok (d2, true)
    else .ok (0, true)
  else if s.oraclePrice < s.targetPrice then do
    let deviation ← safeSub s.targetPrice s.oraclePrice
    let num ← safeMul s.targetPrice s.deviationThreshold
    let thresholdAmt ← safeDiv num PRECISION
    if thresholdAmt < deviation then do
      let d ← computeSupplyDelta deviation s.targetPrice s
      let d2 ← capDelta d s.maxContractionRate s
      .ok (d2, false)
    else .ok (0, true)
  else .ok (0, true)

/-- Clamping arithmetic of the supply-application block of `rebase`:
expansion adds the delta and clamps down to `MAX_SUPPLY`; contraction
clamps up to `MIN_SUPPLY` when the delta exceeds the distance to the
floor, else subtracts the delta. -/
def newSupplyOf (delta : Nat) (isExpansion : Bool) (s : State) :
    Except Err Nat :=
  if isExpansion then do
    let x ← safeAdd s.totalSupply delta
    .ok (if MAX_SUPPLY < x then MAX_SUPPLY else x)
  else do
    let room ← safeSub s.totalSupply MIN_SUPPLY
    if room < delta then .ok MIN_SUPPLY
    else safeSub s.totalSupply delta

/-- Supply-application block of `rebase`: skipped when the delta is
zero; otherwise clamp via `newSupplyOf` and recompute
`gonsPerFragment`. -/
def applySupply (delta : Nat) (isExpansion : Bool) (s : State) :
    Except Err State :=
  if delta = 0 then .ok s
  else do
    let newSupply ← newSupplyOf delta isExpansion s
    let gpf ← safeDiv TOTAL_GONS newSupply
    .ok { s with totalSupply := newSupply, gonsPerFragment := gpf }

/-- `rebase`: permissionless; epoch gate, oracle-price guard, deviation
logic, supply application, then unconditional epoch bookkeeping.
Returns the new state and the reported new total supply. -/
def rebase (blk : Nat) (s : State) : Except Err (State × Nat) := do
  let gate ← safeAdd s.lastRebaseBlock s.epochLength
  if blk < gate then .error .epochNotElapsed
  else if s.oraclePrice = 0 then .error .noOraclePrice
  else do
    let pair ← rebaseDelta s
    let s1 ← applySupply pair.1 pair.2 s
    let ep ← safeAdd s1.epoch 1
    .ok ({ s1 with epoch := ep, lastRebaseBlock := blk }, s1.totalSupply)

/-- `setTargetPrice`: deployer-only, rejects zero. -/
def setTargetPrice (sender : Address) (newTarget : Nat) (s : State) :
    Except Err State :=
  if sender ≠ s.deployer then .error .notDeployer
  else if newTarget = 0 then .error .zeroTarget
  else .ok { s with targetPrice := newTarget }

/-- `setEpochLength`: deployer-only, rejects zero. -/
def setEpochLength (sender : Address) (newLength : Nat) (s : State) :
    Except Err State :=
  if sender ≠ s.deployer then .error .notDeployer
  else if newLength = 0 then .error .zeroEpoch
  else .ok { s with epochLength := newLength }

/-- `setRebaseLag`: deployer-only, rejects zero. -/
def setRebaseLag (sender : Address) (newLag : Nat) (s : State) :
    Except Err State :=
  if sender ≠ s.deployer then .error .notDeployer
  else if newLag = 0 then .error .zeroLag
  else .ok { s with rebaseLag := newLag }

/-- `setDeviationThreshold`: deployer-only; the source stores the value
directly with no zero check. -/
def setDeviationThreshold (sender : Address) (newThreshold : Nat)
    (s : State) : Except Err State :=
  if sender ≠ s.deployer then .error .notDeployer
  else .ok { s with deviationThreshold := newThreshold }

/-- `enableDemoMode`: deployer-only; epoch length 1, lag 2. -/
def enableDemoMode (sender : Address) (s : State) : Except Err State :=
  if sender ≠ s.deployer then .error .notDeployer
  else .ok { s with epochLength := 1, rebaseLag := 2 }

/-- One successful state-mutating call of the contract.  Calldata `u256`
arguments are bounded by `u256.Max`; block numbers come from the
runtime's `u64` block height. -/
inductive Step : State → State → Prop where
  | stepTransfer (sender toAddr : Address) (amount : Nat) {s s' : State} :
      amount ≤ U256MAX → transfer sender toAddr amount s = .ok s' → Step s s'
  | stepTransferFrom (sender f t : Address) (amount : Nat) {s s' : State} :
      amount ≤ U256MAX → transferFrom sender f t amount s = .ok s' →
      Step s s'
  | stepTransferAll (sender toAddr : Address) {s s' : State} :
      transferAll sender toAddr s = .ok s' → Step s s'
  | stepApprove (sender spender : Address) (amount : Nat) {s s' : State} :
      amount ≤ U256MAX → approve sender spender amount s = .ok s' →
      Step s s'
  | stepIncreaseAllowance (sender spender : Address) (v : Nat)
      {s s' : State} :
      v ≤ U256MAX → increaseAllowance sender spender v s = .ok s' →
      Step s s'
  | stepDecreaseAllowance (sender spender : Address) (v : Nat)
      {s s' : State} :
      v ≤ U256MAX → decreaseAllowance sender spender v s = .ok s' →
      Step s s'
  | stepPostPrice (sender : Address) (price blk : Nat) {s s' : State} :
      price ≤ U256MAX → blk < 2 ^ 64 → postPrice sender price blk s = .ok s' →
      Step s s'
  | stepRebase (blk : Nat) {s s' : State} {r : Nat} :
      blk < 2 ^ 64 → rebase blk s = .ok (s', r) → Step s s'
  | stepSetTargetPrice (sender : Address) (v : Nat) {s s' : State} :
      v ≤ U256MAX → setTargetPrice sender v s = .ok s' → Step s s'
  | stepSetEpochLength (sender : Address) (v : Nat) {s s' : State} :
      v ≤ U256MAX → setEpochLength sender v s = .ok s' → Step s s'
  | stepSetRebaseLag (sender : Address) (v : Nat) {s s' : State} :
      v ≤ U256MAX → setRebaseLag sender v s = .ok s' → Step s s'
  | stepSetDeviationThreshold (sender : Address) (v : Nat) {s s' : State} :
      v ≤ U256MAX → setDeviationThreshold sender v s = .ok s' → Step s s'
  | stepEnableDemoMode (sender : Address) {s s' : State} :
      enableDemoMode sender s = .ok s' → Step s s'

/-- A state is reachable when some sequence of successful calls leads to
it from a freshly deployed contract. -/
def Reachable (s : State) : Prop :=
  ∃ (d : Address) (blk : Nat),
    blk < 2 ^ 64 ∧ Relation.ReflTransGen Step (initState d blk) s

/-- The gon ledger sums to `total` over all addresses: every address
outside some finite `S` holds zero gons and the balances over `S` sum to
`total`. -/
def sumEq (bal : Address → Nat) (total : Nat) : Prop :=
  ∃ S : Finset Address, (∀ a, a ∉ S → bal a = 0) ∧ ∑ x ∈ S, bal x = total

/-- The balance function after moving `g` gons from `f` to `t` the way
`_transferFragments` and `transferAll` write it: debit first, then
credit reading the post-debit balance. -/
def moveGons (bal : Address → Nat) (f t : Address) (g : Nat) :
    Address → Nat :=
  Function.update (Function.update bal f (bal f - g)) t
    (Function.update bal f (bal f - g) t + g)

/-! ## Inversion lemmas for the checked arithmetic and `Except` plumbing -/

theorem bind_eq_ok {α β : Type} {x : Except Err α} {g : α → Except Err β}
    {c : β} : x >>= g = .ok c ↔ ∃ b, x = .ok b ∧ g b = .ok c := by
  cases x <;> simp [Bind.bind, Except.bind]

theorem safeAdd_eq_ok {a b c : Nat} :
    safeAdd a b = .ok c ↔ a + b ≤ U256MAX ∧ c = a + b := by
  unfold safeAdd; split <;> simp_all [eq_comm]

theorem safeSub_eq_ok {a b c : Nat} :
    safeSub a b = .ok c ↔ b ≤ a ∧ c = a - b := by
  unfold safeSub; split <;> simp_all [eq_comm]

theorem safeMul_eq_ok {a b c : Nat} :
    safeMul a b = .ok c ↔ a * b ≤ U256MAX ∧ c = a * b := by
  unfold safeMul; split <;> simp_all [eq_comm]

theorem safeDiv_eq_ok {a b c : Nat} :
    safeDiv a b = .ok c ↔ b ≠ 0 ∧ c = a / b := by
  unfold safeDiv; split <;> simp_all [eq_comm]

/-! ## Characterization of the successful runs of each operation -/

theorem transferFragments_ok {f t : Address} {a : Nat} {s s' : State}
    (h : transferFragments f t a s = .ok s') :
    a ≠ 0 ∧ a * s.gonsPerFragment ≤ s.gonBalances f ∧
      s' = { s with gonBalances :=
               moveGons s.gonBalances f t (a * s.gonsPerFragment) } := by
  unfold transferFragments at h
  split at h
  · exact absurd h (by simp)
  · rw [bind_eq_ok] at h
    obtain ⟨g, hg, h⟩ := h
    rw [safeMul_eq_ok] at hg
    obtain ⟨-, rfl⟩ := hg
    dsimp only at h
    split at h
    · exact absurd h (by simp)
    · rw [bind_eq_ok] at h
      obtain ⟨d, hd, h⟩ := h
      rw [safeSub_eq_ok] at hd
      obtain ⟨-, rfl⟩ := hd
      rw [bind_eq_ok] at h
      obtain ⟨c, hc, h⟩ := h
      rw [safeAdd_eq_ok] at hc
      obtain ⟨-, rfl⟩ := hc
      refine ⟨by assumption, by omega, ?_⟩
      simp only [Except.ok.injEq] at h
      exact h.symm

theorem transferAll_ok {sender toAddr : Address} {s s' : State}
    (h : transferAll sender toAddr s = .ok s') :
    s.gonBalances sender ≠ 0 ∧
      s' = { s with
             gonBalances :=
               moveGons s.gonBalances sender toAddr (s.gonBalances sender) } := by
  unfold transferAll at h
  dsimp only at h
  split at h
  · exact absurd h (by simp)
  · rw [bind_eq_ok] at h
    obtain ⟨c, hc, h⟩ := h
    rw [safeAdd_eq_ok] at hc
    obtain ⟨-, rfl⟩ := hc
    simp only [Except.ok.injEq] at h
    refine ⟨by assumption, ?_⟩
    rw [← h]
    unfold moveGons
    simp [Nat.sub_self]

theorem spendAllowance_ok {o sp : Address} {amt : Nat} {s s' : State}
    (h : spendAllowance o sp amt s = .ok s') :
    s'.gonBalances = s.gonBalances ∧ s'.totalSupply = s.totalSupply := by
  unfold spendAllowance at h
  dsimp only at h
  split at h
  · cases h; exact ⟨rfl, rfl⟩
  · split at h
    · exact absurd h (by simp)
    · rw [bind_eq_ok] at h
      obtain ⟨v, -, h⟩ := h
      simp only [Except.ok.injEq] at h
      rw [← h]
      exact ⟨rfl, rfl⟩

theorem transferFrom_ok {sender f t : Address} {a : Nat} {s s' : State}
    (h : transferFrom sender f t a s = .ok s') :
    ∃ s1, spendAllowance f sender a s = .ok s1 ∧
      transferFragments f t a s1 = .ok s' := by
  unfold transferFrom at h
  rw [bind_eq_ok] at h
  exact h

theorem approve_ok {sender sp : Address} {amt : Nat} {s s' : State}
    (h : approve sender sp amt s = .ok s') :
    s'.gonBalances = s.gonBalances ∧ s'.totalSupply = s.totalSupply := by
  unfold approve at h
  simp only [Except.ok.injEq] at h
  rw [← h]; exact ⟨rfl, rfl⟩

theorem increaseAllowance_ok {sender sp : Address} {v : Nat} {s s' : State}
    (h : increaseAllowance sender sp v s = .ok s') :
    s'.gonBalances = s.gonBalances ∧ s'.totalSupply = s.totalSupply := by
  unfold increaseAllowance at h
  rw [bind_eq_ok] at h
  obtain ⟨w, -, h⟩ := h
  simp only [Except.ok.injEq] at h
  rw [← h]; exact ⟨rfl, rfl⟩

theorem decreaseAllowance_ok {sender sp : Address} {v : Nat} {s s' : State}
    (h : decreaseAllowance sender sp v s = .ok s') :
    s'.gonBalances = s.gonBalances ∧ s'.totalSupply = s.totalSupply := by
  unfold decreaseAllowance at h
  dsimp only at h
  split at h
  · exact absurd h (by simp)
  · rw [bind_eq_ok] at h
    obtain ⟨w, -, h⟩ := h
    simp only [Except.ok.injEq] at h
    rw [← h]; exact ⟨rfl, rfl⟩

theorem postPrice_ok {sender : Address} {price blk : Nat} {s s' : State}
    (h : postPrice sender price blk s = .ok s') :
    s'.gonBalances = s.gonBalances ∧ s'.totalSupply = s.totalSupply := by
  unfold postPrice at h
  split at h
  · exact absurd h (by simp)
  · split at h
    · exact absurd h (by simp)
    · simp only [Except.ok.injEq] at h
      rw [← h]; exact ⟨rfl, rfl⟩

theorem setTargetPrice_ok {sender : Address} {v : Nat} {s s' : State}
    (h : setTargetPrice sender v s = .ok s') :
    s'.gonBalances = s.gonBalances ∧ s'.totalSupply = s.totalSupply := by
  unfold setTargetPrice at h
  split at h
  · exact absurd h (by simp)
  · split at h
    · exact absurd h (by simp)
    · simp only [Except.ok.injEq] at h
      rw [← h]; exact ⟨rfl, rfl⟩

theorem setEpochLength_ok {sender : Address} {v : Nat} {s s' : State}
    (h : setEpochLength sender v s = .ok s') :
    s'.gonBalances = s.gonBalances ∧ s'.totalSupply = s.totalSupply := by
  unfold setEpochLength at h
  split at h
  · exact absurd h (by simp)
  · split at h
    · exact absurd h (by simp)
    · simp only [Except.ok.injEq] at h
      rw [← h]; exact ⟨rfl, rfl⟩

theorem setRebaseLag_ok {sender : Address} {v : Nat} {s s' : State}
    (h : setRebaseLag sender v s = .ok s') :
    s'.gonBalances = s.gonBalances ∧ s'.totalSupply = s.totalSupply := by
  unfold setRebaseLag at h
  split at h
  · exact absurd h (by simp)
  · split at h
    · exact absurd h (by simp)
    · simp only [Except.ok.injEq] at h
      rw [← h]; exact ⟨rfl, rfl⟩

theorem setDeviationThreshold_ok {sender : Address} {v : Nat} {s s' : State}
    (h : setDeviationThreshold sender v s = .ok s') :
    s'.gonBalances = s.gonBalances ∧ s'.totalSupply = s.totalSupply := by
  unfold setDeviationThreshold at h
  split at h
  · exact absurd h (by simp)
  · simp only [Except.ok.injEq] at h
    rw [← h]; exact ⟨rfl, rfl⟩

theorem enableDemoMode_ok {sender : Address} {s s' : State}
    (h : enableDemoMode sender s = .ok s') :
    s'.gonBalances = s.gonBalances ∧ s'.totalSupply = s.totalSupply := by
  unfold enableDemoMode at h
  split at h
  · exact absurd h (by simp)
  · simp only [Except.ok.injEq] at h
    rw [← h]; exact ⟨rfl, rfl⟩

theorem newSupplyOf_ok {d : Nat} {b : Bool} {s : State} {ns : Nat}
    (h : newSupplyOf d b s = .ok ns) :
    MIN_SUPPLY ≤ s.totalSupply → s.totalSupply ≤ MAX_SUPPLY →
      MIN_SUPPLY ≤ ns ∧ ns ≤ MAX_SUPPLY := by
  intro h1 h2
  unfold newSupplyOf at h
  cases b with
  | true =>
    simp only [if_true] at h
    rw [bind_eq_ok] at h
    obtain ⟨x, hx, h⟩ := h
    rw [safeAdd_eq_ok] at hx
    obtain ⟨-, rfl⟩ := hx
    simp only [Except.ok.injEq] at h
    rw [← h]
    split <;> constructor <;> first | decide | omega
  | false =>
    simp only [Bool.false_eq_true, if_false] at h
    rw [bind_eq_ok] at h
    obtain ⟨room, hroom, h⟩ := h
    rw [safeSub_eq_ok] at hroom
    obtain ⟨hmin, hr⟩ := hroom
    rw [hr] at h
    split at h
    · simp only [Except.ok.injEq] at h
      rw [← h]
      exact ⟨le_refl _, by decide⟩
    · rw [safeSub_eq_ok] at h
      obtain ⟨-, hns⟩ := h
      rw [hns]
      constructor <;> omega

theorem applySupply_ok {d : Nat} {b : Bool} {s s1 : State}
    (h : applySupply d b s = .ok s1) :
    s1.gonBalances = s.gonBalances ∧ s1.allowances = s.allowances ∧
    s1.epoch = s.epoch ∧ s1.lastRebaseBlock = s.lastRebaseBlock ∧
    s1.epochLength = s.epochLength ∧ s1.deployer = s.deployer ∧
    (MIN_SUPPLY ≤ s.totalSupply → s.totalSupply ≤ MAX_SUPPLY →
      MIN_SUPPLY ≤ s1.totalSupply ∧ s1.totalSupply ≤ MAX_SUPPLY) := by
  unfold applySupply at h
  split at h
  · cases h
    exact ⟨rfl, rfl, rfl, rfl, rfl, rfl, fun h1 h2 => ⟨h1, h2⟩⟩
  · rw [bind_eq_ok] at h
    obtain ⟨ns, hns, h⟩ := h
    rw [bind_eq_ok] at h
    obtain ⟨gpf, -, h⟩ := h
    simp only [Except.ok.injEq] at h
    rw [← h]
    exact ⟨rfl, rfl, rfl, rfl, rfl, rfl, newSupplyOf_ok hns⟩

theorem rebase_ok {blk : Nat} {s s' : State} {r : Nat}
    (h : rebase blk s = .ok (s', r)) :
    s.lastRebaseBlock + s.epochLength ≤ U256MAX ∧
    s.lastRebaseBlock + s.epochLength ≤ blk ∧
    s.oraclePrice ≠ 0 ∧
    s'.gonBalances = s.gonBalances ∧ s'.allowances = s.allowances ∧
    s'.epoch = s.epoch + 1 ∧ s'.lastRebaseBlock = blk ∧
    s'.epochLength = s.epochLength ∧ s'.deployer = s.deployer ∧
    (MIN_SUPPLY ≤ s.totalSupply → s.totalSupply ≤ MAX_SUPPLY →
      MIN_SUPPLY ≤ s'.totalSupply ∧ s'.totalSupply ≤ MAX_SUPPLY) := by
  unfold rebase at h
  rw [bind_eq_ok] at h
  obtain ⟨gate, hgate, h⟩ := h
  rw [safeAdd_eq_ok] at hgate
  obtain ⟨hle, rfl⟩ := hgate
  split at h
  · exact absurd h (by simp)
  · split at h
    · exact absurd h (by simp)
    · rw [bind_eq_ok] at h
      obtain ⟨p, -, h⟩ := h
      rw [bind_eq_ok] at h
      obtain ⟨s1, hs1, h⟩ := h
      rw [bind_eq_ok] at h
      obtain ⟨ep, hep, h⟩ := h
      rw [safeAdd_eq_ok] at hep
      obtain ⟨-, rfl⟩ := hep
      simp only [Except.ok.injEq, Prod.mk.injEq] at h
      obtain ⟨h, -⟩ := h
      obtain ⟨hb, ha, hepo, hlrb, hlen, hdep, hbounds⟩ := applySupply_ok hs1
      rw [← h]
      refine ⟨hle, by omega, by assumption, hb, ha, by rw [hepo],
        rfl, hlen, hdep, hbounds⟩

/-! ## Forward-evaluation helpers -/

theorem safeAdd_ok_of (a b : Nat) (h : a + b ≤ U256MAX) :
    safeAdd a b = .ok (a + b) := by
  rw [safeAdd_eq_ok]; exact ⟨h, rfl⟩

theorem safeSub_ok_of (a b : Nat) (h : b ≤ a) :
    safeSub a b = .ok (a - b) := by
  rw [safeSub_eq_ok]; exact ⟨h, rfl⟩

theorem safeMul_ok_of (a b : Nat) (h : a * b ≤ U256MAX) :
    safeMul a b = .ok (a * b) := by
  rw [safeMul_eq_ok]; exact ⟨h, rfl⟩

theorem safeDiv_ok_of (a b : Nat) (h : b ≠ 0) :
    safeDiv a b = .ok (a / b) := by
  rw [safeDiv_eq_ok]; exact ⟨h, rfl⟩

theorem ok_bind {α β : Type} (v : α) (k : α → Except Err β) :
    ((.ok v : Except Err α) >>= k) = k v := rfl

theorem bind_eq_error {α β : Type} {x : Except Err α}
    {k : α → Except Err β} {e : Err} :
    (x >>= k) = .error e ↔
      x = .error e ∨ ∃ b, x = .ok b ∧ k b = .error e := by
  cases x <;> simp [Bind.bind, Except.bind]

theorem safeAdd_eq_error {a b : Nat} {e : Err}
    (h : safeAdd a b = .error e) : e = Err.overflow := by
  unfold safeAdd at h; split at h <;> simp_all

theorem safeSub_eq_error {a b : Nat} {e : Err}
    (h : safeSub a b = .error e) : e = Err.underflow := by
  unfold safeSub at h; split at h <;> simp_all

theorem safeMul_eq_error {a b : Nat} {e : Err}
    (h : safeMul a b = .error e) : e = Err.overflow := by
  unfold safeMul at h; split at h <;> simp_all

theorem safeDiv_eq_error {a b : Nat} {e : Err}
    (h : safeDiv a b = .error e) : e = Err.divByZero := by
  unfold safeDiv at h; split at h <;> simp_all

/-! ## Conservation of the gon ledger -/

theorem moveGons_self (bal : Address → Nat) (a : Address) {g : Nat}
    (hg : g ≤ bal a) : moveGons bal a a g = bal := by
  funext x
  unfold moveGons
  by_cases hx : x = a
  · subst hx
    simp [Function.update_same, Nat.sub_add_cancel hg]
  · simp [Function.update_noteq hx]

theorem sumEq_moveGons {bal : Address → Nat} {T : Nat} (f t : Address)
    {g : Nat} (hg : g ≤ bal f) (h : sumEq bal T) :
    sumEq (moveGons bal f t g) T := by
  obtain ⟨S, hS0, hSsum⟩ := h
  by_cases hft : f = t
  · subst hft
    rw [moveGons_self bal f hg]
    exact ⟨S, hS0, hSsum⟩
  · refine ⟨insert f (insert t S), ?_, ?_⟩
    · intro a ha
      simp only [Finset.mem_insert, not_or] at ha
      obtain ⟨haf, hat, haS⟩ := ha
      unfold moveGons
      rw [Function.update_noteq hat, Function.update_noteq haf]
      exact hS0 a haS
    · have hfS : f ∈ insert f (insert t S) := Finset.mem_insert_self _ _
      have htS : t ∈ insert f (insert t S) :=
        Finset.mem_insert_of_mem (Finset.mem_insert_self _ _)
      have hsum' : ∑ x ∈ insert f (insert t S), bal x = T := by
        rw [← hSsum]
        refine (Finset.sum_subset ?_ ?_).symm
        · intro x hx
          exact Finset.mem_insert_of_mem (Finset.mem_insert_of_mem hx)
        · intro x _ hxS
          exact hS0 x hxS
      unfold moveGons
      rw [Finset.sum_update_of_mem htS, Finset.sdiff_singleton_eq_erase]
      have hfe : f ∈ (insert f (insert t S)).erase t :=
        Finset.mem_erase.mpr ⟨hft, hfS⟩
      rw [Finset.sum_update_of_mem hfe, Finset.sdiff_singleton_eq_erase]
      rw [Function.update_noteq (Ne.symm hft)]
      have hdec1 : bal f + ∑ x ∈ ((insert f (insert t S)).erase t).erase f,
          bal x = ∑ x ∈ (insert f (insert t S)).erase t, bal x :=
        Finset.add_sum_erase _ bal hfe
      have hdec2 : bal t + ∑ x ∈ (insert f (insert t S)).erase t, bal x =
          ∑ x ∈ insert f (insert t S), bal x :=
        Finset.add_sum_erase _ bal htS
      omega

theorem sumEq_init (d : Address) (blk : Nat) :
    sumEq (initState d blk).gonBalances TOTAL_GONS := by
  refine ⟨{d}, ?_, ?_⟩
  · intro a ha
    simp only [Finset.mem_singleton] at ha
    simp [initState, Function.update_noteq ha]
  · simp [initState]

/-- The master inductive invariant: a single successful call preserves
gon conservation and the supply bounds. -/
theorem step_preserves {s s' : State} (hstep : Step s s')
    (h : sumEq s.gonBalances TOTAL_GONS ∧
      MIN_SUPPLY ≤ s.totalSupply ∧ s.totalSupply ≤ MAX_SUPPLY) :
    sumEq s'.gonBalances TOTAL_GONS ∧
      MIN_SUPPLY ≤ s'.totalSupply ∧ s'.totalSupply ≤ MAX_SUPPLY := by
  obtain ⟨hsum, hmin, hmax⟩ := h
  cases hstep with
  | stepTransfer sender toAddr amount hb htr =>
    obtain ⟨-, hle, hs'⟩ := transferFragments_ok htr
    rw [hs']
    exact ⟨sumEq_moveGons _ _ hle hsum, hmin, hmax⟩
  | stepTransferFrom sender f t amount hb htr =>
    obtain ⟨s1, hsp, htf⟩ := transferFrom_ok htr
    obtain ⟨hbal1, hts1⟩ := spendAllowance_ok hsp
    obtain ⟨-, hle, hs'⟩ := transferFragments_ok htf
    rw [hs']
    refine ⟨?_, by simpa [hts1] using hmin, by simpa [hts1] using hmax⟩
    have : sumEq s1.gonBalances TOTAL_GONS := by rw [hbal1]; exact hsum
    exact sumEq_moveGons _ _ hle this
  | stepTransferAll sender toAddr htr =>
    obtain ⟨-, hs'⟩ := transferAll_ok htr
    rw [hs']
    exact ⟨sumEq_moveGons _ _ (le_refl _) hsum, hmin, hmax⟩
  | stepApprove sender spender amount hb htr =>
    obtain ⟨hbal, hts⟩ := approve_ok htr
    exact ⟨by rw [hbal]; exact hsum, by omega, by omega⟩
  | stepIncreaseAllowance sender spender v hb htr =>
    obtain ⟨hbal, hts⟩ := increaseAllowance_ok htr
    exact ⟨by rw [hbal]; exact hsum, by omega, by omega⟩
  | stepDecreaseAllowance sender spender v hb htr =>
    obtain ⟨hbal, hts⟩ := decreaseAllowance_ok htr
    exact ⟨by rw [hbal]; exact hsum, by omega, by omega⟩
  | stepPostPrice sender price blk hb hblk htr =>
    obtain ⟨hbal, hts⟩ := postPrice_ok htr
    exact ⟨by rw [hbal]; exact hsum, by omega, by omega⟩
  | stepRebase blk hblk htr =>
    obtain ⟨-, -, -, hbal, -, -, -, -, -, hbounds⟩ := rebase_ok htr
    exact ⟨by rw [hbal]; exact hsum, (hbounds hmin hmax).1,
      (hbounds hmin hmax).2⟩
  | stepSetTargetPrice sender v hb htr =>
    obtain ⟨hbal, hts⟩ := setTargetPrice_ok htr
    exact ⟨by rw [hbal]; exact hsum, by omega, by omega⟩
  | stepSetEpochLength sender v hb htr =>
    obtain ⟨hbal, hts⟩ := setEpochLength_ok htr
    exact ⟨by rw [hbal]; exact hsum, by omega, by omega⟩
  | stepSetRebaseLag sender v hb htr =>
    obtain ⟨hbal, hts⟩ := setRebaseLag_ok htr
    exact ⟨by rw [hbal]; exact hsum, by omega, by omega⟩
  | stepSetDeviationThreshold sender v hb htr =>
    obtain ⟨hbal, hts⟩ := setDeviationThreshold_ok htr
    exact ⟨by rw [hbal]; exact hsum, by omega, by omega⟩
  | stepEnableDemoMode sender htr =>
    obtain ⟨hbal, hts⟩ := enableDemoMode_ok htr
    exact ⟨by rw [hbal]; exact hsum, by omega, by omega⟩

/-- Every reachable state conserves the gon ledger and keeps the supply
within its bounds. -/
theorem inv_reachable {s : State} (h : Reachable s) :
    sumEq s.gonBalances TOTAL_GONS ∧
      MIN_SUPPLY ≤ s.totalSupply ∧ s.totalSupply ≤ MAX_SUPPLY := by
  obtain ⟨d, blk, -, htr⟩ := h
  induction htr with
  | refl =>
    refine ⟨sumEq_init d blk, ?_, ?_⟩
    · show MIN_SUPPLY ≤ INITIAL_SUPPLY
      decide
    · show INITIAL_SUPPLY ≤ MAX_SUPPLY
      decide
  | tail hab hbc ih => exact step_preserves hbc ih

/-! ## Forward runs of the transfer operations -/

theorem transferFragments_run {f t : Address} {a : Nat} {s : State}
    (hm : a ≠ 0) (hmul : a * s.gonsPerFragment ≤ U256MAX)
    (hb : a * s.gonsPerFragment ≤ s.gonBalances f)
    (hadd : Function.update s.gonBalances f
        (s.gonBalances f - a * s.gonsPerFragment) t +
        a * s.gonsPerFragment ≤ U256MAX) :
    transferFragments f t a s =
      .ok { s with gonBalances :=
              moveGons s.gonBalances f t (a * s.gonsPerFragment) } := by
  unfold transferFragments moveGons
  rw [if_neg hm, safeMul_ok_of _ _ hmul, ok_bind]
  dsimp only
  rw [if_neg (Nat.not_lt.mpr hb), safeSub_ok_of _ _ hb, ok_bind,
    safeAdd_ok_of _ _ hadd, ok_bind]

theorem transferAll_run {sender toAddr : Address} {s : State}
    (h0 : s.gonBalances sender ≠ 0)
    (hadd : Function.update s.gonBalances sender 0 toAddr +
      s.gonBalances sender ≤ U256MAX) :
    transferAll sender toAddr s =
      .ok { s with gonBalances := moveGons s.gonBalances sender toAddr (s.gonBalances sender) } := by
  unfold transferAll moveGons
  dsimp only
  rw [if_neg h0, safeAdd_ok_of _ _ hadd, ok_bind]
  simp [Nat.sub_self]

/-! ## Claim theorems -/

theorem computeSupplyDelta_run {dev tgt : Nat} {s : State}
    (hmul : s.totalSupply * dev ≤ U256MAX) (ht : tgt ≠ 0)
    (hlag : s.rebaseLag ≠ 0) :
    computeSupplyDelta dev tgt s =
      .ok (s.totalSupply * dev / tgt / s.rebaseLag) := by
  unfold computeSupplyDelta
  rw [safeMul_ok_of _ _ hmul, ok_bind, safeDiv_ok_of _ _ ht, ok_bind,
    safeDiv_ok_of _ _ hlag]

theorem capDelta_run {d rate : Nat} {s : State}
    (hmul : s.totalSupply * rate ≤ U256MAX) :
    capDelta d rate s = .ok (min d (s.totalSupply * rate / PRECISION)) := by
  unfold capDelta
  rw [safeMul_ok_of _ _ hmul, ok_bind,
    safeDiv_ok_of _ _ (by decide : PRECISION ≠ 0), ok_bind]
  rcases Nat.lt_or_ge (s.totalSupply * rate / PRECISION) d with hc | hc
  · rw [if_pos hc, min_eq_right (le_of_lt hc)]
  · rw [if_neg (Nat.not_lt.mpr hc), min_eq_left hc]

/-- C3: Rebase delta formula — when a rebase finds the deviation
strictly above the threshold amount, the applied supply delta is
min(floor(floor(totalSupply * deviation / targetPrice) / rebaseLag),
floor(totalSupply * rateCap / PRECISION)), with `maxExpansionRate` as
the rate cap in the expansion direction and `maxContractionRate` in the
contraction direction (overflow-free hypotheses reflect the `u256`
ranges in which the multiplications succeed). -/
theorem rebase_delta_formula (s : State) :
    (0 < s.targetPrice → s.rebaseLag ≠ 0 →
      s.targetPrice * s.deviationThreshold ≤ U256MAX →
      s.targetPrice < s.oraclePrice →
      s.targetPrice * s.deviationThreshold / PRECISION <
        s.oraclePrice - s.targetPrice →
      s.totalSupply * (s.oraclePrice - s.targetPrice) ≤ U256MAX →
      s.totalSupply * s.maxExpansionRate ≤ U256MAX →
      rebaseDelta s = .ok
        (min (s.totalSupply * (s.oraclePrice - s.targetPrice) / s.targetPrice / s.rebaseLag) (s.totalSupply * s.maxExpansionRate / PRECISION), true)) ∧
    (s.rebaseLag ≠ 0 →
      s.targetPrice * s.deviationThreshold ≤ U256MAX →
      s.oraclePrice < s.targetPrice →
      s.targetPrice * s.deviationThreshold / PRECISION <
        s.targetPrice - s.oraclePrice →
      s.totalSupply * (s.targetPrice - s.oraclePrice) ≤ U256MAX →
      s.totalSupply * s.maxContractionRate ≤ U256MAX →
      rebaseDelta s = .ok
        (min (s.totalSupply * (s.targetPrice - s.oraclePrice) / s.targetPrice / s.rebaseLag) (s.totalSupply * s.maxContractionRate / PRECISION), false)) := by
  constructor
  · intro htpos hlag hthr hdir hdev hm1 hm2
    unfold rebaseDelta
    rw [if_pos hdir, safeSub_ok_of _ _ (le_of_lt hdir), ok_bind,
      safeMul_ok_of _ _ hthr, ok_bind,
      safeDiv_ok_of _ _ (by decide : PRECISION ≠ 0), ok_bind,
      if_pos hdev,
      computeSupplyDelta_run hm1 (Nat.pos_iff_ne_zero.mp htpos) hlag,
      ok_bind, capDelta_run hm2, ok_bind]
  · intro hlag hthr hdir hdev hm1 hm2
    have hne : ¬ s.targetPrice < s.oraclePrice := by omega
    have htz : s.targetPrice ≠ 0 := by omega
    unfold rebaseDelta
    rw [if_neg hne, if_pos hdir, safeSub_ok_of _ _ (le_of_lt hdir),
      ok_bind, safeMul_ok_of _ _ hthr, ok_bind,
      safeDiv_ok_of _ _ (by decide : PRECISION ≠ 0), ok_bind,
      if_pos hdev, computeSupplyDelta_run hm1 htz hlag,
      ok_bind, capDelta_run hm2, ok_bind]

/-- The spec's Scenario A state: deployed supply 5×10^15, target 10^8,
lag 10, oracle price posted at 1.2×10^8 (20 percent above target). -/
def expansionScenario : State :=
  { initState 3 0 with oraclePrice := 120000000 }

/-- C3 witness: in Scenario A the applied delta is exactly
100000000000000 raw (1 000 000 BAMPL), below the 5 percent cap of
2.5×10^14. -/
theorem rebase_delta_formula_witness :
    rebaseDelta expansionScenario = .ok (100000000000000, true) := by
  have h := (rebase_delta_formula expansionScenario).1 (by decide)
    (by decide) (by decide) (by decide) (by decide) (by decide) (by decide)
  rw [h]
  rfl

/-- C10: Self-transfer is balance-neutral — for any address `a` and any
nonzero fragment amount `m` covered by the gon balance of `a` (a `u256`
value, hence at most `u256.Max`), a transfer from `a` to `a` succeeds
and leaves the whole state, in particular every gon balance, exactly
unchanged, because the credit re-reads the recipient balance after the
debit was written. -/
theorem self_transfer_neutral (a : Address) (m : Nat) (s : State)
    (hm : m ≠ 0) (hb : m * s.gonsPerFragment ≤ s.gonBalances a)
    (hcap : s.gonBalances a ≤ U256MAX) :
    transferFragments a a m s = .ok s := by
  have hadd : Function.update s.gonBalances a
      (s.gonBalances a - m * s.gonsPerFragment) a +
      m * s.gonsPerFragment ≤ U256MAX := by
    rw [Function.update_same]; omega
  rw [transferFragments_run hm (le_trans hb hcap) hb hadd,
    moveGons_self s.gonBalances a hb]

/-- C10 witness: a concrete self-transfer of 2 fragments by the deployer
on a freshly deployed state returns the state unchanged. -/
theorem self_transfer_neutral_witness :
    transferFragments 3 3 2 (initState 3 0) = .ok (initState 3 0) :=
  self_transfer_neutral 3 2 (initState 3 0) (by decide) (by decide)
    (by decide)

/-- C9: Sentinel allowance spend — when `transferFrom` spends an
allowance through `spendAllowance`: an allowance equal to the sentinel
`u256.Max` is left exactly unchanged whatever the amount; otherwise the
call fails with the allowance-exceeded error when the amount exceeds the
current allowance, and decrements the allowance by exactly the amount
when it does not. -/
theorem spendAllowance_sentinel (owner spender : Address) (amount : Nat)
    (s : State) :
    (getAllowance s owner spender = U256MAX →
      spendAllowance owner spender amount s = .ok s) ∧
    (getAllowance s owner spender ≠ U256MAX →
      getAllowance s owner spender < amount →
      spendAllowance owner spender amount s = .error .allowanceExceeded) ∧
    (getAllowance s owner spender ≠ U256MAX →
      amount ≤ getAllowance s owner spender →
      spendAllowance owner spender amount s =
        .ok (setAllowance owner spender
          (getAllowance s owner spender - amount) s)) := by
  refine ⟨?_, ?_, ?_⟩
  · intro h1
    unfold spendAllowance
    rw [if_pos h1]
  · intro h1 h2
    unfold spendAllowance
    rw [if_neg h1, if_pos h2]
  · intro h1 h2
    unfold spendAllowance
    rw [if_neg h1, if_neg (Nat.not_lt.mpr h2),
      safeSub_ok_of _ _ h2, ok_bind]

/-- State with an unlimited allowance from owner 1 to spender 2. -/
def allowMaxState : State := setAllowance 1 2 U256MAX (initState 3 0)

/-- State with a finite allowance of 40 from owner 1 to spender 2. -/
def allowSmallState : State := setAllowance 1 2 40 (initState 3 0)

/-- C9 witness: an unlimited allowance survives a spend of 999
untouched; a 40 allowance rejects a spend of 50 and is decremented to 10
by a spend of 30. -/
theorem spendAllowance_sentinel_witness :
    spendAllowance 1 2 999 allowMaxState = .ok allowMaxState ∧
    spendAllowance 1 2 50 allowSmallState = .error .allowanceExceeded ∧
    spendAllowance 1 2 30 allowSmallState =
      .ok (setAllowance 1 2 10 allowSmallState) :=
  ⟨(spendAllowance_sentinel 1 2 999 allowMaxState).1 (by decide),
   (spendAllowance_sentinel 1 2 50 allowSmallState).2.1 (by decide)
     (by decide),
   (spendAllowance_sentinel 1 2 30 allowSmallState).2.2 (by decide)
     (by decide)⟩

/-- C8: `transferAll` is dust-free — it fails exactly when the sender's
gon balance is zero (and then with the zero-balance error); on success
the gon ledger is rewritten by zeroing the sender and crediting the full
prior gon balance to the recipient with no fragment conversion (the
`moveGons` write sequence with the whole balance), all other state
untouched; for a distinct recipient this zeroes the sender and adds the
entire prior nonzero gon balance — even one smaller than
`gonsPerFragment`, for which `fragmentBalance` reads zero — to the
recipient, leaving every third balance unchanged. -/
theorem transferAll_dust_free (sender toAddr : Address) (s : State)
    (hcap : Function.update s.gonBalances sender 0 toAddr +
      s.gonBalances sender ≤ U256MAX) :
    ((∃ e, transferAll sender toAddr s = .error e) ↔
      s.gonBalances sender = 0) ∧
    (s.gonBalances sender = 0 →
      transferAll sender toAddr s = .error Err.zeroBalance) ∧
    (∀ s', transferAll sender toAddr s = .ok s' →
      s'.gonBalances = moveGons s.gonBalances sender toAddr (s.gonBalances sender) ∧
      s'.totalSupply = s.totalSupply ∧
      s'.gonsPerFragment = s.gonsPerFragment ∧
      s'.allowances = s.allowances) ∧
    (sender ≠ toAddr → s.gonBalances sender ≠ 0 →
      ∃ s', transferAll sender toAddr s = .ok s' ∧
        s'.gonBalances sender = 0 ∧
        s'.gonBalances toAddr =
          s.gonBalances toAddr + s.gonBalances sender ∧
        ∀ x, x ≠ sender → x ≠ toAddr →
          s'.gonBalances x = s.gonBalances x) := by
  refine ⟨⟨?_, ?_⟩, ?_, ?_, ?_⟩
  · rintro ⟨e, he⟩
    by_contra h0
    rw [transferAll_run h0 hcap] at he
    exact absurd he (by simp)
  · intro h0
    unfold transferAll
    dsimp only
    rw [if_pos h0]
    exact ⟨_, rfl⟩
  · intro h0
    unfold transferAll
    dsimp only
    rw [if_pos h0]
  · intro s' hok
    obtain ⟨-, hs'⟩ := transferAll_ok hok
    rw [hs']
    exact ⟨rfl, rfl, rfl, rfl⟩
  · intro hne h0
    refine ⟨_, transferAll_run h0 hcap, ?_, ?_, ?_⟩
    · show moveGons s.gonBalances sender toAddr (s.gonBalances sender) sender = 0
      unfold moveGons
      rw [Function.update_noteq hne, Function.update_same, Nat.sub_self]
    · show moveGons s.gonBalances sender toAddr (s.gonBalances sender) toAddr =
        s.gonBalances toAddr + s.gonBalances sender
      unfold moveGons
      rw [Function.update_same,
        Function.update_noteq (Ne.symm hne)]
    · intro x hx1 hx2
      show moveGons s.gonBalances sender toAddr (s.gonBalances sender) x =
        s.gonBalances x
      unfold moveGons
      rw [Function.update_noteq hx2, Function.update_noteq hx1]

/-- C1: Gon conservation — in every reachable state, i.e. before and
after every sequence of successful transfer, transferFrom, transferAll,
approve/increaseAllowance/decreaseAllowance, postPrice, admin-setter and
rebase operations, the gon balances sum to `TOTAL_GONS` over all
addresses (transfers debit and credit the same gon value; rebase never
writes a balance entry). -/
theorem gon_conservation {s : State} (h : Reachable s) :
    sumEq s.gonBalances TOTAL_GONS :=
  (inv_reachable h).1

/-- C1 witness: the freshly deployed state is reachable and its ledger
sums to `TOTAL_GONS`. -/
theorem gon_conservation_witness :
    sumEq (initState 7 0).gonBalances TOTAL_GONS :=
  gon_conservation ⟨7, 0, by decide, Relation.ReflTransGen.refl⟩

/-- C2: Supply bounds — every reachable state satisfies
`MIN_SUPPLY ≤ totalSupply ≤ MAX_SUPPLY`; moreover any single successful
rebase started within the bounds (in particular one starting at
`totalSupply = MIN_SUPPLY` under a deep negative deviation) ends within
the bounds: expansion clamps down to `MAX_SUPPLY` and contraction clamps
up to `MIN_SUPPLY`. -/
theorem supply_bounds :
    (∀ s : State, Reachable s →
      MIN_SUPPLY ≤ s.totalSupply ∧ s.totalSupply ≤ MAX_SUPPLY) ∧
    (∀ (blk : Nat) (s s' : State) (r : Nat),
      MIN_SUPPLY ≤ s.totalSupply → s.totalSupply ≤ MAX_SUPPLY →
      rebase blk s = .ok (s', r) →
      MIN_SUPPLY ≤ s'.totalSupply ∧ s'.totalSupply ≤ MAX_SUPPLY) :=
  ⟨fun s h => (inv_reachable h).2,
   fun blk s s' r h1 h2 h => (rebase_ok h).2.2.2.2.2.2.2.2.2 h1 h2⟩

/-- A state at the supply floor with a deep negative deviation (oracle
price 1 against target 10^8). -/
def contractionFloorState : State :=
  { initState 3 0 with totalSupply := MIN_SUPPLY, oraclePrice := 1 }

/-- The state produced by rebasing `contractionFloorState` at block 144:
supply is clamped at `MIN_SUPPLY`. -/
def contractionFloorResult : State :=
  { contractionFloorState with totalSupply := MIN_SUPPLY, gonsPerFragment := TOTAL_GONS / MIN_SUPPLY, epoch := 1, lastRebaseBlock := 144 }

/-- C2 witness: the deployed state is in bounds, and a rebase from the
floor under a deep negative deviation stays at `MIN_SUPPLY`. -/
theorem supply_bounds_witness :
    (MIN_SUPPLY ≤ (initState 11 0).totalSupply ∧
      (initState 11 0).totalSupply ≤ MAX_SUPPLY) ∧
    (MIN_SUPPLY ≤ contractionFloorResult.totalSupply ∧
      contractionFloorResult.totalSupply ≤ MAX_SUPPLY) :=
  ⟨supply_bounds.1 (initState 11 0)
     ⟨11, 0, by decide, Relation.ReflTransGen.refl⟩,
   supply_bounds.2 144 contractionFloorState contractionFloorResult
     MIN_SUPPLY (by decide) (by decide) rfl⟩

/-- C5: Epoch bookkeeping — every successful rebase increments `epoch`
by exactly one and sets `lastRebaseBlock` to the current block number,
unconditionally: on the supply-changing path and on the
no-deviation/dead-zone no-op path alike. -/
theorem epoch_bookkeeping {blk : Nat} {s s' : State} {r : Nat}
    (h : rebase blk s = .ok (s', r)) :
    s'.epoch = s.epoch + 1 ∧ s'.lastRebaseBlock = blk := by
  obtain ⟨-, -, -, -, -, he, hl, -, -, -⟩ := rebase_ok h
  exact ⟨he, hl⟩

/-- The state produced by the no-op rebase of the deployed state at
block 144 (price at peg, no supply change). -/
def noopRebaseResult : State :=
  { initState 7 0 with epoch := 1, lastRebaseBlock := 144 }

/-- C5 witness: the concrete no-op rebase at block 144 advances the
epoch from 0 to 1 and records block 144. -/
theorem epoch_bookkeeping_witness :
    noopRebaseResult.epoch = (initState 7 0).epoch + 1 ∧
    noopRebaseResult.lastRebaseBlock = 144 :=
  @epoch_bookkeeping 144 (initState 7 0) noopRebaseResult
    5000000000000000 rfl

/-- Inside the deviation dead zone the direction logic of `rebase`
yields a zero delta. -/
theorem rebaseDelta_dead {s : State}
    (hup : s.oraclePrice - s.targetPrice ≤
      s.targetPrice * s.deviationThreshold / PRECISION)
    (hdown : s.targetPrice - s.oraclePrice ≤
      s.targetPrice * s.deviationThreshold / PRECISION)
    {p : Nat × Bool} (hp : rebaseDelta s = .ok p) : p = (0, true) := by
  unfold rebaseDelta at hp
  split at hp
  case isTrue hlt =>
    rw [bind_eq_ok] at hp
    obtain ⟨dev, hdev, hp⟩ := hp
    rw [safeSub_eq_ok] at hdev
    obtain ⟨-, hdev⟩ := hdev
    rw [bind_eq_ok] at hp
    obtain ⟨num, hnum, hp⟩ := hp
    rw [safeMul_eq_ok] at hnum
    obtain ⟨-, hnum⟩ := hnum
    rw [bind_eq_ok] at hp
    obtain ⟨thr, hthr, hp⟩ := hp
    rw [safeDiv_eq_ok] at hthr
    obtain ⟨-, hthr⟩ := hthr
    split at hp
    case isTrue hcond =>
      exfalso
      rw [hthr, hnum, hdev] at hcond
      exact absurd hup (Nat.not_le.mpr hcond)
    case isFalse hcond =>
      simp only [Except.ok.injEq] at hp
      exact hp.symm
  case isFalse h1 =>
    split at hp
    case isTrue hlt =>
      rw [bind_eq_ok] at hp
      obtain ⟨dev, hdev, hp⟩ := hp
      rw [safeSub_eq_ok] at hdev
      obtain ⟨-, hdev⟩ := hdev
      rw [bind_eq_ok] at hp
      obtain ⟨num, hnum, hp⟩ := hp
      rw [safeMul_eq_ok] at hnum
      obtain ⟨-, hnum⟩ := hnum
      rw [bind_eq_ok] at hp
      obtain ⟨thr, hthr, hp⟩ := hp
      rw [safeDiv_eq_ok] at hthr
      obtain ⟨-, hthr⟩ := hthr
      split at hp
      case isTrue hcond =>
        exfalso
        rw [hthr, hnum, hdev] at hcond
        exact absurd hdown (Nat.not_le.mpr hcond)
      case isFalse hcond =>
        simp only [Except.ok.injEq] at hp
        exact hp.symm
    case isFalse h2 =>
      simp only [Except.ok.injEq] at hp
      exact hp.symm

/-- C4: Dead-zone no-op — whenever the absolute oracle/target deviation
is at most floor(targetPrice * deviationThreshold / PRECISION)
(including price exactly at target), a successful rebase leaves
`totalSupply` and `gonsPerFragment` exactly unchanged (the delta stays
zero and the supply-update branch is skipped) while still advancing the
epoch. -/
theorem dead_zone_noop {blk : Nat} {s s' : State} {r : Nat}
    (hup : s.oraclePrice - s.targetPrice ≤
      s.targetPrice * s.deviationThreshold / PRECISION)
    (hdown : s.targetPrice - s.oraclePrice ≤
      s.targetPrice * s.deviationThreshold / PRECISION)
    (h : rebase blk s = .ok (s', r)) :
    s'.totalSupply = s.totalSupply ∧
      s'.gonsPerFragment = s.gonsPerFragment ∧
      s'.epoch = s.epoch + 1 := by
  unfold rebase at h
  rw [bind_eq_ok] at h
  obtain ⟨gate, -, h⟩ := h
  split at h
  · exact absurd h (by simp)
  · split at h
    · exact absurd h (by simp)
    · rw [bind_eq_ok] at h
      obtain ⟨p, hp, h⟩ := h
      obtain rfl := rebaseDelta_dead hup hdown hp
      rw [show applySupply (0, true).1 (0, true).2 s = .ok s from rfl,
        ok_bind, bind_eq_ok] at h
      obtain ⟨ep, hep, h⟩ := h
      rw [safeAdd_eq_ok] at hep
      obtain ⟨-, rfl⟩ := hep
      simp only [Except.ok.injEq, Prod.mk.injEq] at h
      obtain ⟨hs', -⟩ := h
      rw [← hs']
      exact ⟨rfl, rfl, rfl⟩

/-- C4 witness: at deployment the price equals the target, so the
rebase at block 144 changes neither `totalSupply` nor
`gonsPerFragment`, yet the epoch advances. -/
theorem dead_zone_noop_witness :
    noopRebaseResult.totalSupply = (initState 7 0).totalSupply ∧
    noopRebaseResult.gonsPerFragment = (initState 7 0).gonsPerFragment ∧
    noopRebaseResult.epoch = (initState 7 0).epoch + 1 :=
  @dead_zone_noop 144 (initState 7 0) noopRebaseResult 5000000000000000
    (by decide) (by decide) rfl

theorem computeSupplyDelta_error {dev tgt : Nat} {s : State} {e : Err}
    (h : computeSupplyDelta dev tgt s = .error e) :
    e ≠ Err.epochNotElapsed := by
  unfold computeSupplyDelta at h
  rw [bind_eq_error] at h
  rcases h with h | ⟨b, -, h⟩
  · rw [safeMul_eq_error h]; decide
  · rw [bind_eq_error] at h
    rcases h with h | ⟨c, -, h⟩
    · rw [safeDiv_eq_error h]; decide
    · rw [safeDiv_eq_error h]; decide

theorem capDelta_error {d rate : Nat} {s : State} {e : Err}
    (h : capDelta d rate s = .error e) : e ≠ Err.epochNotElapsed := by
  unfold capDelta at h
  rw [bind_eq_error] at h
  rcases h with h | ⟨b, -, h⟩
  · rw [safeMul_eq_error h]; decide
  · rw [bind_eq_error] at h
    rcases h with h | ⟨c, -, h⟩
    · rw [safeDiv_eq_error h]; decide
    · exact absurd h (by simp)

theorem rebaseDelta_error_ne {s : State} {e : Err}
    (h : rebaseDelta s = .error e) : e ≠ Err.epochNotElapsed := by
  unfold rebaseDelta at h
  split at h
  · rw [bind_eq_error] at h
    rcases h with h | ⟨dev, -, h⟩
    · rw [safeSub_eq_error h]; decide
    · rw [bind_eq_error] at h
      rcases h with h | ⟨num, -, h⟩
      · rw [safeMul_eq_error h]; decide
      · rw [bind_eq_error] at h
        rcases h with h | ⟨thr, -, h⟩
        · rw [safeDiv_eq_error h]; decide
        · split at h
          · rw [bind_eq_error] at h
            rcases h with h | ⟨d1, -, h⟩
            · exact computeSupplyDelta_error h
            · rw [bind_eq_error] at h
              rcases h with h | ⟨d2, -, h⟩
              · exact capDelta_error h
              · exact absurd h (by simp)
          · exact absurd h (by simp)
  · split at h
    · rw [bind_eq_error] at h
      rcases h with h | ⟨dev, -, h⟩
      · rw [safeSub_eq_error h]; decide
      · rw [bind_eq_error] at h
        rcases h with h | ⟨num, -, h⟩
        · rw [safeMul_eq_error h]; decide
        · rw [bind_eq_error] at h
          rcases h with h | ⟨thr, -, h⟩
          · rw [safeDiv_eq_error h]; decide
          · split at h
            · rw [bind_eq_error] at h
              rcases h with h | ⟨d1, -, h⟩
              · exact computeSupplyDelta_error h
              · rw [bind_eq_error] at h
                rcases h with h | ⟨d2, -, h⟩
                · exact capDelta_error h
                · exact absurd h (by simp)
            · exact absurd h (by simp)
    · exact absurd h (by simp)

theorem newSupplyOf_error {d : Nat} {b : Bool} {s : State} {e : Err}
    (h : newSupplyOf d b s = .error e) : e ≠ Err.epochNotElapsed := by
  unfold newSupplyOf at h
  split at h
  · rw [bind_eq_error] at h
    rcases h with h | ⟨x, -, h⟩
    · rw [safeAdd_eq_error h]; decide
    · exact absurd h (by simp)
  · rw [bind_eq_error] at h
    rcases h with h | ⟨room, -, h⟩
    · rw [safeSub_eq_error h]; decide
    · split at h
      · exact absurd h (by simp)
      · rw [safeSub_eq_error h]; decide

theorem applySupply_error_ne {d : Nat} {b : Bool} {s : State} {e : Err}
    (h : applySupply d b s = .error e) : e ≠ Err.epochNotElapsed := by
  unfold applySupply at h
  split at h
  · exact absurd h (by simp)
  · rw [bind_eq_error] at h
    rcases h with h | ⟨ns, -, h⟩
    · exact newSupplyOf_error h
    · rw [bind_eq_error] at h
      rcases h with h | ⟨gpf, -, h⟩
      · rw [safeDiv_eq_error h]; decide
      · exact absurd h (by simp)

/-- C6 amended: One rebase per window — `rebase` fails with the
epoch-gate error exactly when `lastRebaseBlock + epochLength` fits in
`u256` and the current block is below it (when the gate sum overflows
`u256`, the call fails with the SafeMath overflow error instead); and
after any successful rebase at a `u64` block height, a second call at
any block below `lastRebaseBlock + epochLength` — in particular any
second call in the same block when `epochLength ≥ 1` — fails with the
epoch-gate error. -/
theorem epoch_gate :
    (∀ (blk : Nat) (s : State),
      rebase blk s = .error Err.epochNotElapsed ↔
        s.lastRebaseBlock + s.epochLength ≤ U256MAX ∧
          blk < s.lastRebaseBlock + s.epochLength) ∧
    (∀ (blk blk2 : Nat) (s s' : State) (r : Nat), blk < 2 ^ 64 →
      rebase blk s = .ok (s', r) → blk2 < blk + s.epochLength →
      rebase blk2 s' = .error Err.epochNotElapsed) := by
  have hiff : ∀ (blk : Nat) (s : State),
      rebase blk s = .error Err.epochNotElapsed ↔
        s.lastRebaseBlock + s.epochLength ≤ U256MAX ∧
          blk < s.lastRebaseBlock + s.epochLength := by
    intro blk s
    constructor
    · intro h
      unfold rebase at h
      rw [bind_eq_error] at h
      rcases h with h | ⟨gate, hgate, h⟩
      · exact absurd (safeAdd_eq_error h) (by decide)
      · rw [safeAdd_eq_ok] at hgate
        obtain ⟨h1, hg⟩ := hgate
        split at h
        · rw [hg] at *
          exact ⟨h1, by assumption⟩
        · exfalso
          split at h
          · exact absurd h (by simp)
          · rw [bind_eq_error] at h
            rcases h with h | ⟨p, -, h⟩
            · exact rebaseDelta_error_ne h rfl
            · rw [bind_eq_error] at h
              rcases h with h | ⟨s1, -, h⟩
              · exact applySupply_error_ne h rfl
              · rw [bind_eq_error] at h
                rcases h with h | ⟨ep, -, h⟩
                · exact absurd (safeAdd_eq_error h) (by decide)
                · exact absurd h (by simp)
    · rintro ⟨h1, h2⟩
      unfold rebase
      rw [safeAdd_ok_of _ _ h1, ok_bind, if_pos h2]
  refine ⟨hiff, ?_⟩
  intro blk blk2 s s' r hblk hok hlt
  obtain ⟨hle, hgate, -, -, -, -, hlrb, hlen, -, -⟩ := rebase_ok hok
  rw [hiff]
  rw [hlrb, hlen]
  have h65 : 2 ^ 65 ≤ U256MAX := by decide
  exact ⟨by omega, hlt⟩

/-- A reachable state whose epoch gate sum overflows `u256`:
deployed at block 1, then `epochLength` set to `u256.Max` by the
deployer. -/
def gateOverflowState : State :=
  { initState 0 1 with epochLength := U256MAX }

/-- C6 counterexample: in the reachable state `gateOverflowState`, block
5 is below `lastRebaseBlock + epochLength`, yet `rebase` does not fail
with the epoch-gate error — it fails with the SafeMath overflow error —
so the claimed exact correspondence fails as stated. -/
theorem epoch_gate_overflow_cex :
    Reachable gateOverflowState ∧
    5 < gateOverflowState.lastRebaseBlock + gateOverflowState.epochLength ∧
    rebase 5 gateOverflowState ≠ .error Err.epochNotElapsed ∧
    rebase 5 gateOverflowState = .error Err.overflow := by
  have heq : rebase 5 gateOverflowState = .error Err.overflow := rfl
  refine ⟨⟨0, 1, by decide, ?_⟩, by decide, ?_, heq⟩
  · exact Relation.ReflTransGen.single
      (Step.stepSetEpochLength 0 U256MAX (le_refl _) rfl)
  · intro hcontra
    rw [heq] at hcontra
    exact absurd (Except.error.inj hcontra) (by decide)

/-- C6 witness: the no-op rebase of the deployed state at block 144
succeeds; a second call at block 150 < 144 + 144 fails with the
epoch-gate error. -/
theorem epoch_gate_witness :
    rebase 150 noopRebaseResult = .error Err.epochNotElapsed :=
  epoch_gate.2 144 150 (initState 7 0) noopRebaseResult
    5000000000000000 (by decide) rfl (by decide)

/-- C7 counterexample: called by the administrator with input 0,
`setDeviationThreshold` does not fail — it succeeds and overwrites the
nonzero default threshold with 0. -/
theorem setDeviationThreshold_zero_cex :
    setDeviationThreshold 3 0 (initState 3 0) =
      .ok { initState 3 0 with deviationThreshold := 0 } ∧
    (initState 3 0).deviationThreshold ≠ 0 :=
  ⟨rfl, by decide⟩

/-- C7 amended: `setTargetPrice`, `setEpochLength` and `setRebaseLag`,
called by the administrator with input 0, fail with their zero-value
errors (leaving the parameter unchanged, since a revert discards all
writes); `setDeviationThreshold` performs no zero check and stores any
administrator-supplied value, including 0, so `deviationThreshold` —
unlike the other three parameters — can be zero in a reachable state. -/
theorem setters_zero_check :
    (∀ (sender : Address) (s : State), sender = s.deployer →
      setTargetPrice sender 0 s = .error Err.zeroTarget ∧
      setEpochLength sender 0 s = .error Err.zeroEpoch ∧
      setRebaseLag sender 0 s = .error Err.zeroLag) ∧
    (∀ (sender : Address) (v : Nat) (s : State), sender = s.deployer →
      setDeviationThreshold sender v s =
        .ok { s with deviationThreshold := v }) := by
  constructor
  · intro sender s hs
    refine ⟨?_, ?_, ?_⟩
    · unfold setTargetPrice
      rw [if_neg (by simp [hs]), if_pos rfl]
    · unfold setEpochLength
      rw [if_neg (by simp [hs]), if_pos rfl]
    · unfold setRebaseLag
      rw [if_neg (by simp [hs]), if_pos rfl]
  · intro sender v s hs
    unfold setDeviationThreshold
    rw [if_neg (by simp [hs])]

/-- C7 witness: the administrator's zero inputs are rejected by the
three checked setters, while `setDeviationThreshold` stores an arbitrary
value without complaint. -/
theorem setters_zero_check_witness :
    setTargetPrice 3 0 (initState 3 0) = .error Err.zeroTarget ∧
    setEpochLength 3 0 (initState 3 0) = .error Err.zeroEpoch ∧
    setRebaseLag 3 0 (initState 3 0) = .error Err.zeroLag ∧
    setDeviationThreshold 3 7 (initState 3 0) =
      .ok { initState 3 0 with deviationThreshold := 7 } :=
  ⟨(setters_zero_check.1 3 (initState 3 0) rfl).1,
   (setters_zero_check.1 3 (initState 3 0) rfl).2.1,
   (setters_zero_check.1 3 (initState 3 0) rfl).2.2,
   setters_zero_check.2 3 7 (initState 3 0) rfl⟩

/-- A state in which address 9 holds 5 gons, fewer than one fragment
(`gonsPerFragment` is 10^61 after deployment). -/
def dustState : State :=
  { initState 3 0 with gonBalances := Function.update (fun _ => 0) 9 5 }

/-- C8 witness: address 9 has a zero fragment balance yet `transferAll`
moves its whole 5-gon balance to address 4. -/
theorem transferAll_dust_free_witness :
    fragmentBalance dustState 9 = .ok 0 ∧
    dustState.gonBalances 9 ≠ 0 ∧
    ∃ s', transferAll 9 4 dustState = .ok s' ∧
      s'.gonBalances 9 = 0 ∧
      s'.gonBalances 4 = dustState.gonBalances 4 + dustState.gonBalances 9 ∧
      ∀ x, x ≠ 9 → x ≠ 4 → s'.gonBalances x = dustState.gonBalances x :=
  ⟨rfl, by decide,
   (transferAll_dust_free 9 4 dustState (by decide)).2.2.2
     (by decide) (by decide)⟩

end BAMPL
